import Mathlib

/-
Verification of the loan-calculator repository.

The computational surface of the repository is three pure arithmetic
functions in src/utils/calculations.ts (calculateEMI, calculateSubLoanSplit,
calculatePartnerLoan) plus the coordinating submit handler calculateResults
in src/components/LoanCalculator.tsx.  They are embedded here over exact
rational arithmetic (the numbers of the source are IEEE doubles; the claims
under verification are stated over exact arithmetic).

Division is the one place where the source can leave the realm of finite
numbers: a zero divisor produces NaN or an infinity in JavaScript, never a
finite value, and every claim in scope only ever asserts facts about finite
results.  The embedding therefore models a possibly-non-finite quantity as
an Option: none stands for a non-finite IEEE value (NaN or an infinity),
and jsDiv returns none exactly when the divisor is zero.  Arithmetic on
such quantities is lifted with Option.map / Option.map2, matching the IEEE
rule that an operation with a NaN operand is NaN (the model conflates NaN
with the infinities; no claim distinguishes them, and for the validated
non-negative inputs of the coordinator the zero-divisor cases all produce
NaN).  Overflow of doubles to infinity is outside the model.

tenureYears is modelled as a natural number: the spec declares it a
positive integer, and Math.pow with the integer exponent tenureYears * 12
is rational-valued exactly there.
-/

namespace LoanCalc

/-- Model of the JavaScript expression Math.round (x * 100) / 100 used by the
source to round an amount to two decimals.  Math.round rounds to the nearest
integer, halves toward positive infinity, which is floor (y + 1/2). -/
def jsRound2 (x : ℚ) : ℚ := (Int.floor (x * 100 + 1 / 2) : ℚ) / 100

/-- Division as performed by the source: a zero divisor yields a non-finite
IEEE value (NaN or an infinity), modelled as none. -/
def jsDiv (a b : ℚ) : Option ℚ := if b = 0 then none else some (a / b)

/-- Model of calculateEMI from src/utils/calculations.ts.  Note that the
source has no special case for a zero rate: at annualRate = 0 the divisor
Math.pow (1 + 0, totalMonths) - 1 is 0 and the result is non-finite. -/
def calculateEMI (principal annualRate : ℚ) (tenureYears : ℕ) : Option ℚ :=
  let monthlyRate := annualRate / (12 * 100)
  let totalMonths := tenureYears * 12
  (jsDiv (principal * monthlyRate * (1 + monthlyRate) ^ totalMonths)
      ((1 + monthlyRate) ^ totalMonths - 1)).map jsRound2

/-- Result record of calculateSubLoanSplit, mirroring the object returned by
the source. -/
structure SplitResult where
  partnerAEMI : Option ℚ
  partnerBCDEMI : Option ℚ
  totalEMI : Option ℚ
  partnerAShare : Option ℚ
  partnerBCDShare : Option ℚ
  deriving Repr, DecidableEq

/-- Model of calculateSubLoanSplit from src/utils/calculations.ts.  The share
computation divides by totalEMI, hence is non-finite when totalEMI is zero or
itself non-finite. -/
def calculateSubLoanSplit (totalLoan partnerAPrincipal bankRate premiumRate : ℚ)
    (tenureYears : ℕ) : SplitResult :=
  let totalEMI := calculateEMI totalLoan bankRate tenureYears
  let partnerBCDPrincipal := totalLoan - partnerAPrincipal
  let partnerBCDEMI := calculateEMI partnerBCDPrincipal (bankRate + premiumRate) tenureYears
  let partnerAEMI := Option.map₂ (fun a b => a - b) totalEMI partnerBCDEMI
  let partnerAShare := ((Option.map₂ jsDiv partnerAEMI totalEMI).join).map (fun q => q * 100)
  let partnerBCDShare := partnerAShare.map (fun s => 100 - s)
  { partnerAEMI := partnerAEMI
    partnerBCDEMI := partnerBCDEMI
    totalEMI := totalEMI
    partnerAShare := partnerAShare
    partnerBCDShare := partnerBCDShare }

/-- Result record of calculatePartnerLoan, mirroring the object returned by
the source.  monthlyPayment and shareDifference are computed before any
division and are finite whenever the arguments are; only the principal can
become non-finite. -/
structure PartnerLoanResult where
  partnerLoanPrincipal : Option ℚ
  monthlyPayment : ℚ
  shareDifference : ℚ
  deriving Repr, DecidableEq

/-- Model of calculatePartnerLoan from src/utils/calculations.ts.  The
denominator is the per-unit-principal installment factor; the source divides
by it without guarding the zero-rate case. -/
def calculatePartnerLoan (currentEMI currentShare targetShare partnerLoanRate : ℚ)
    (tenureYears : ℕ) : PartnerLoanResult :=
  let shareDifference := currentShare - targetShare
  let monthlyDifference := currentEMI * shareDifference / 100
  let monthlyRate := partnerLoanRate / (12 * 100)
  let totalMonths := tenureYears * 12
  let denominator := jsDiv (monthlyRate * (1 + monthlyRate) ^ totalMonths)
      ((1 + monthlyRate) ^ totalMonths - 1)
  let partnerLoanPrincipal := denominator.bind (fun d => (jsDiv monthlyDifference d).map jsRound2)
  { partnerLoanPrincipal := partnerLoanPrincipal
    monthlyPayment := monthlyDifference
    shareDifference := shareDifference }

/-- The per-unit-principal installment factor r (1+r)^n / ((1+r)^n - 1) used
by calculatePartnerLoan as its denominator and implicitly by calculateEMI. -/
def installmentFactor (annualRate : ℚ) (tenureYears : ℕ) : ℚ :=
  let monthlyRate := annualRate / (12 * 100)
  let totalMonths := tenureYears * 12
  monthlyRate * (1 + monthlyRate) ^ totalMonths / ((1 + monthlyRate) ^ totalMonths - 1)

/-- The eight user-supplied fields of the coordinator state in
src/components/LoanCalculator.tsx.  A field holds none when it is blank or
parses to NaN (handleInputChange stores the empty string for a cleared field
and parseFloat yields NaN on garbage); tenureYears is a natural number per
the data model of the spec. -/
structure LoanInputs where
  projectCapex : Option ℚ
  equityShare : Option ℚ
  bankLoan : Option ℚ
  bankRate : Option ℚ
  tenureYears : Option ℕ
  premiumRate : Option ℚ
  partnerLoanRate : Option ℚ
  targetShare : Option ℚ
  deriving Repr, DecidableEq

/-- The CalculationResults record published by setResults in
src/components/LoanCalculator.tsx.  The optional partner-loan pair
(partnerLoanPrincipal, partnerLoanEMI) is present exactly when the solver
ran, modelled by the partnerLoan field. -/
structure CalcResult where
  bankEMI : Option ℚ
  partnerAShare : Option ℚ
  partnerAEMI : Option ℚ
  partnerBCDShare : Option ℚ
  partnerBCDEMI : Option ℚ
  effectiveOwnershipCost : Option ℚ
  totalOutflow : Option ℚ
  partnerLoan : Option PartnerLoanResult
  finalPartnerAShare : ℚ
  finalPartnerAEMI : Option ℚ
  finalPartnerBCDTotalEMI : Option ℚ
  initialPartnerAShare : Option ℚ
  initialPartnerAEMI : Option ℚ
  initialPartnerBCDShare : Option ℚ
  initialPartnerBCDEMI : Option ℚ
  deriving Repr, DecidableEq

/-- Outcome of one invocation of the submit handler: either a modal message
is raised and the previous result is left untouched, or a fresh result record
is published via setResults. -/
inductive CoordOutcome where
  | rejected (message : String)
  | published (r : CalcResult)
  deriving Repr, DecidableEq

/-- Mirror of the per-field test in the validation line of calculateResults:
value === empty string, isNaN (value), or value < 0. -/
def fieldInvalid (v : Option ℚ) : Bool :=
  match v with
  | none => true
  | some x => decide (x < 0)

/-- Mirror of Object.values (inputs).some (...) in calculateResults.  The
tenure field is a natural number, so only absence can invalidate it. -/
def hasInvalidField (i : LoanInputs) : Bool :=
  fieldInvalid i.projectCapex || fieldInvalid i.equityShare || fieldInvalid i.bankLoan ||
    fieldInvalid i.bankRate ||
    (match i.tenureYears with
      | none => true
      | some _ => false) ||
    fieldInvalid i.premiumRate || fieldInvalid i.partnerLoanRate || fieldInvalid i.targetShare

/-- The minimum required funding for Partner A computed by the coordinator:
projectCapex * equityShare / 100. -/
def minRequiredFundingA (projectCapex equityShare : ℚ) : ℚ :=
  projectCapex * equityShare / 100

/-- The partnerAPrincipal derivation of calculateResults, factored out of the
handler body verbatim: if the bank loan does not exceed the minimum required
funding the whole loan is used, otherwise the proportional amount is clamped
between the minimum and the bank loan. -/
def partnerAPrincipalOf (projectCapex equityShare bankLoan : ℚ) : ℚ :=
  let minRequired := minRequiredFundingA projectCapex equityShare
  if bankLoan ≤ minRequired then bankLoan
  else max minRequired (min bankLoan (projectCapex * equityShare / 100))

/-- The JavaScript comparison a < b where b may be non-finite: a comparison
with NaN is false.  Used for the targetShare < partnerAShare guard. -/
def jsLt (a : ℚ) (b : Option ℚ) : Bool :=
  match b with
  | none => false
  | some x => decide (a < x)

/-- The sub-loan split computed by the coordinator on the validated inputs. -/
def splitOf (i : LoanInputs) : SplitResult :=
  calculateSubLoanSplit (i.bankLoan.getD 0)
    (partnerAPrincipalOf (i.projectCapex.getD 0) (i.equityShare.getD 0) (i.bankLoan.getD 0))
    (i.bankRate.getD 0) (i.premiumRate.getD 0) (i.tenureYears.getD 0)

/-- The bank EMI computed by the coordinator on the validated inputs. -/
def bankEMIOf (i : LoanInputs) : Option ℚ :=
  calculateEMI (i.bankLoan.getD 0) (i.bankRate.getD 0) (i.tenureYears.getD 0)

/-- The success path of calculateResults: everything after the two guards,
assembling the record passed to setResults.  Validation has established that
every field is present, so the getD 0 extractions read the actual values.
The partner-loan branch is guarded by targetShare < partnerAShare; when
partnerAShare is non-finite the JavaScript comparison is false and the
branch is skipped, which the match captures.  When the branch is taken,
partnerAShare is finite, hence so is totalEMI and therefore bankEMI (they
are the same computation), so the match on both scrutinees is faithful.
The JavaScript fallback (partnerLoanResults?.monthlyPayment || 0) equals
monthlyPayment itself for every finite value, 0 included. -/
def buildResult (i : LoanInputs) : CalcResult :=
  let projectCapex := i.projectCapex.getD 0
  let bankLoan := i.bankLoan.getD 0
  let bankRate := i.bankRate.getD 0
  let tenureYears := i.tenureYears.getD 0
  let partnerLoanRate := i.partnerLoanRate.getD 0
  let targetShare := i.targetShare.getD 0
  let bankEMI := bankEMIOf i
  let partnerAPrincipal := partnerAPrincipalOf projectCapex (i.equityShare.getD 0) bankLoan
  let initialPartnerAShare := (jsDiv partnerAPrincipal bankLoan).map (fun q => q * 100)
  let initialPartnerAEMI := calculateEMI partnerAPrincipal bankRate tenureYears
  let initialPartnerBCDShare := initialPartnerAShare.map (fun s => 100 - s)
  let initialPartnerBCDEMI := Option.map₂ (fun a b => a - b) bankEMI initialPartnerAEMI
  let splitResults := splitOf i
  let partnerALoanShare := splitResults.partnerAShare.map (fun s => s / 100 * bankLoan)
  let effectiveOwnershipCost :=
    (partnerALoanShare.bind (fun x => jsDiv x projectCapex)).map (fun q => q * 100)
  let totalMonths : ℕ := tenureYears * 12
  let totalOutflow := splitResults.partnerAEMI.map (fun e => e * (totalMonths : ℚ))
  let finalTriple : Option PartnerLoanResult × Option ℚ × Option ℚ :=
    match splitResults.partnerAShare, bankEMI with
    | some paShare, some bEMI =>
      if targetShare < paShare then
        let plr := calculatePartnerLoan bEMI paShare targetShare partnerLoanRate tenureYears
        (some plr, some (targetShare / 100 * bEMI),
          splitResults.partnerBCDEMI.map (fun x => x + plr.monthlyPayment))
      else (none, splitResults.partnerAEMI, splitResults.partnerBCDEMI)
    | _, _ => (none, splitResults.partnerAEMI, splitResults.partnerBCDEMI)
  { bankEMI := bankEMI
    partnerAShare := splitResults.partnerAShare
    partnerAEMI := splitResults.partnerAEMI
    partnerBCDShare := splitResults.partnerBCDShare
    partnerBCDEMI := splitResults.partnerBCDEMI
    effectiveOwnershipCost := effectiveOwnershipCost
    totalOutflow := totalOutflow
    partnerLoan := finalTriple.1
    finalPartnerAShare := targetShare
    finalPartnerAEMI := finalTriple.2.1
    finalPartnerBCDTotalEMI := finalTriple.2.2
    initialPartnerAShare := initialPartnerAShare
    initialPartnerAEMI := initialPartnerAEMI
    initialPartnerBCDShare := initialPartnerBCDShare
    initialPartnerBCDEMI := initialPartnerBCDEMI }

/-- The validation failure message of calculateResults. -/
def invalidInputMessage : String := "Please enter valid positive numbers for all fields"

/-- The insufficient bank loan message of calculateResults.  The source
interpolates the amount and percentage into the string; the claims only
distinguish rejection paths, so the constant prefix is used. -/
def insufficientLoanMessage : String := "Bank loan amount is insufficient"

/-- Model of calculateResults from src/components/LoanCalculator.tsx: the
eight-field validation guard, the insufficient bank loan guard, then the
success path publishing a fresh record. -/
def calculateResults (i : LoanInputs) : CoordOutcome :=
  if hasInvalidField i then CoordOutcome.rejected invalidInputMessage
  else if i.bankLoan.getD 0 < minRequiredFundingA (i.projectCapex.getD 0) (i.equityShare.getD 0)
    then CoordOutcome.rejected insufficientLoanMessage
  else CoordOutcome.published (buildResult i)

/-- Concrete input vector exercising the partner-loan branch: the split gives
Partner A a 100 percent share and the target share is 50. -/
def demoLoanBranchInputs : LoanInputs :=
  { projectCapex := some 4095, equityShare := some 100, bankLoan := some 4095,
    bankRate := some 1200, tenureYears := some 1, premiumRate := some 0,
    partnerLoanRate := some 1200, targetShare := some 50 }

/-- Concrete input vector in which the target share equals the current share,
so the partner-loan branch is skipped. -/
def demoNoLoanInputs : LoanInputs :=
  { projectCapex := some 4095, equityShare := some 100, bankLoan := some 4095,
    bankRate := some 1200, tenureYears := some 1, premiumRate := some 0,
    partnerLoanRate := some 1200, targetShare := some 100 }

/-- Concrete input vector with all eight fields present and non-negative but
with a bank loan below the minimum required funding for Partner A. -/
def demoRejectedInputs : LoanInputs :=
  { projectCapex := some 100, equityShare := some 50, bankLoan := some 10,
    bankRate := some 1, tenureYears := some 1, premiumRate := some 0,
    partnerLoanRate := some 1, targetShare := some 0 }

/-! ### Helper lemmas about the rounding and the EMI formula -/

lemma jsRound2_err (x : ℚ) : |jsRound2 x - x| ≤ 1 / 200 := by
  have h1 : (Int.floor (x * 100 + 1 / 2) : ℚ) ≤ x * 100 + 1 / 2 := Int.floor_le _
  have h2 : x * 100 + 1 / 2 - 1 < (Int.floor (x * 100 + 1 / 2) : ℚ) := Int.sub_one_lt_floor _
  unfold jsRound2
  rw [abs_le]
  constructor <;> linarith

lemma jsRound2_nonneg (x : ℚ) (hx : 0 ≤ x) : 0 ≤ jsRound2 x := by
  unfold jsRound2
  have h0 : (0 : ℤ) ≤ Int.floor (x * 100 + 1 / 2) := by
    rw [Int.le_floor]
    push_cast
    linarith
  have h0q : (0 : ℚ) ≤ (Int.floor (x * 100 + 1 / 2) : ℚ) := by exact_mod_cast h0
  linarith

lemma one_lt_pow_monthly (rate : ℚ) (t : ℕ) (hr : 0 < rate) (ht : 0 < t) :
    1 < (1 + rate / (12 * 100)) ^ (t * 12) := by
  have h1 : 1 < 1 + rate / (12 * 100) := by
    have : 0 < rate / (12 * 100) := by positivity
    linarith
  have hn : t * 12 ≠ 0 := by omega
  exact one_lt_pow₀ h1 hn

lemma calculateEMI_pos_rate (p rate : ℚ) (t : ℕ) (hr : 0 < rate) (ht : 0 < t) :
    calculateEMI p rate t = some (jsRound2 (p * installmentFactor rate t)) := by
  have hpw := one_lt_pow_monthly rate t hr ht
  have hne : (1 + rate / (12 * 100)) ^ (t * 12) - 1 ≠ 0 := sub_ne_zero.mpr (ne_of_gt hpw)
  unfold calculateEMI jsDiv
  simp only [if_neg hne, Option.map_some']
  congr 1
  unfold installmentFactor
  simp only
  ring_nf

lemma calculateEMI_zero_rate (p : ℚ) (t : ℕ) : calculateEMI p 0 t = none := by
  unfold calculateEMI jsDiv
  norm_num

lemma calculateEMI_none_iff (p rate : ℚ) (t : ℕ) (hr : 0 ≤ rate) (ht : 0 < t) :
    calculateEMI p rate t = none ↔ rate = 0 := by
  constructor
  · intro h
    by_contra hne
    have hpos : 0 < rate := lt_of_le_of_ne hr (Ne.symm hne)
    rw [calculateEMI_pos_rate p rate t hpos ht] at h
    exact Option.noConfusion h
  · intro h
    subst h
    exact calculateEMI_zero_rate p t

/-! ### Claim C1 -/

/-- C1: the claim states that the zero-rate degenerate case is handled
explicitly so that calculateEMI (principal, 0, tenureYears) equals
principal / (tenureYears * 12) exactly.  The source has no such guard: at
principal = 1200, rate = 0, tenureYears = 1 the divisor
(1 + 0) ^ 12 - 1 is 0, the result is the non-finite 0 / 0 instead of the
specified 1200 / (1 * 12) = 100. -/
theorem c1_zero_rate_division_by_zero :
    calculateEMI 1200 0 1 = none ∧ (1200 : ℚ) / (1 * 12) = 100 :=
  ⟨calculateEMI_zero_rate 1200 1, by norm_num⟩

/-! ### Claim C3 -/

/-- C3 counterexample: at principal = 600 ≥ 0, rate = 0 ≥ 0 and
tenure = 2 > 0 the function returns no finite value at all, so the claimed
inequality calculateEMI (600, 0, 2) ≥ 0 fails as stated. -/
theorem c3_counterexample :
    (0 : ℚ) ≤ 600 ∧ (0 : ℚ) ≤ 0 ∧ 0 < 2 ∧ calculateEMI 600 0 2 = none :=
  ⟨by norm_num, le_refl 0, by norm_num, calculateEMI_zero_rate 600 2⟩

/-- C3 amended: for every principal ≥ 0, annualRate strictly positive and
tenureYears > 0, calculateEMI returns a finite value and that value is
non-negative.  The strict positivity of the rate is forced by the
counterexample above. -/
theorem c3_emi_nonneg (p rate : ℚ) (t : ℕ) (hp : 0 ≤ p) (hr : 0 < rate) (ht : 0 < t) :
    ∃ q, calculateEMI p rate t = some q ∧ 0 ≤ q := by
  refine ⟨jsRound2 (p * installmentFactor rate t), calculateEMI_pos_rate p rate t hr ht, ?_⟩
  apply jsRound2_nonneg
  have hpw := one_lt_pow_monthly rate t hr ht
  unfold installmentFactor
  simp only
  apply mul_nonneg hp
  apply div_nonneg
  · positivity
  · linarith

/-- C3 witness: the amended statement evaluated at principal 4095, annual
rate 1200 percent and tenure 1 year. -/
theorem c3_witness :
    (0 : ℚ) ≤ 4095 ∧ (0 : ℚ) < 1200 ∧
      ∃ q, calculateEMI 4095 1200 1 = some q ∧ 0 ≤ q :=
  ⟨by norm_num, by norm_num, c3_emi_nonneg 4095 1200 1 (by norm_num) (by norm_num) (by norm_num)⟩

/-! ### Projection lemmas for the split and the partner-loan solver -/

lemma split_totalEMI (tl pa br pr : ℚ) (t : ℕ) :
    (calculateSubLoanSplit tl pa br pr t).totalEMI = calculateEMI tl br t := rfl

lemma split_partnerBCDEMI (tl pa br pr : ℚ) (t : ℕ) :
    (calculateSubLoanSplit tl pa br pr t).partnerBCDEMI = calculateEMI (tl - pa) (br + pr) t := rfl

lemma split_partnerAEMI (tl pa br pr : ℚ) (t : ℕ) :
    (calculateSubLoanSplit tl pa br pr t).partnerAEMI
      = Option.map₂ (fun a b => a - b) (calculateEMI tl br t)
          (calculateEMI (tl - pa) (br + pr) t) := rfl

lemma split_partnerAShare (tl pa br pr : ℚ) (t : ℕ) :
    (calculateSubLoanSplit tl pa br pr t).partnerAShare
      = ((Option.map₂ jsDiv (calculateSubLoanSplit tl pa br pr t).partnerAEMI
          (calculateSubLoanSplit tl pa br pr t).totalEMI).join).map (fun q => q * 100) := rfl

lemma split_partnerBCDShare (tl pa br pr : ℚ) (t : ℕ) :
    (calculateSubLoanSplit tl pa br pr t).partnerBCDShare
      = (calculateSubLoanSplit tl pa br pr t).partnerAShare.map (fun s => 100 - s) := rfl

lemma partnerLoan_monthlyPayment (cE cS tS rate : ℚ) (t : ℕ) :
    (calculatePartnerLoan cE cS tS rate t).monthlyPayment = cE * (cS - tS) / 100 := rfl

lemma installmentFactor_pos (rate : ℚ) (t : ℕ) (hr : 0 < rate) (ht : 0 < t) :
    0 < installmentFactor rate t := by
  have hpw := one_lt_pow_monthly rate t hr ht
  unfold installmentFactor
  simp only
  apply div_pos
  · have h0 : 0 < rate / (12 * 100) := by positivity
    positivity
  · linarith

lemma partnerLoan_principal (cE cS tS rate : ℚ) (t : ℕ) (hr : 0 < rate) (ht : 0 < t) :
    (calculatePartnerLoan cE cS tS rate t).partnerLoanPrincipal
      = some (jsRound2 (cE * (cS - tS) / 100 / installmentFactor rate t)) := by
  have hpw := one_lt_pow_monthly rate t hr ht
  have hne : (1 + rate / (12 * 100)) ^ (t * 12) - 1 ≠ 0 := sub_ne_zero.mpr (ne_of_gt hpw)
  have hfpos := installmentFactor_pos rate t hr ht
  have hfact : rate / (12 * 100) * (1 + rate / (12 * 100)) ^ (t * 12)
      / ((1 + rate / (12 * 100)) ^ (t * 12) - 1) = installmentFactor rate t := rfl
  unfold calculatePartnerLoan jsDiv
  simp only [if_neg hne, hfact, Option.some_bind, if_neg (ne_of_gt hfpos), Option.map_some']

/-! ### Claim C4 -/

/-- C4: under the documented preconditions the split returns exactly the
premium-loaded remainder EMI for partners B, C, D, the undivided total EMI,
and the residual partnerAEMI, so the residual identity
partnerAEMI + partnerBCDEMI = totalEMI holds (as an identity of possibly
non-finite quantities, lifted pointwise). -/
theorem c4_split_structure (tl pa br pr : ℚ) (t : ℕ)
    (h0 : 0 ≤ pa) (h1 : pa ≤ tl) (hbr : 0 ≤ br) (hpr : 0 ≤ pr) (ht : 0 < t) :
    (calculateSubLoanSplit tl pa br pr t).partnerBCDEMI = calculateEMI (tl - pa) (br + pr) t ∧
    (calculateSubLoanSplit tl pa br pr t).totalEMI = calculateEMI tl br t ∧
    (calculateSubLoanSplit tl pa br pr t).partnerAEMI
      = Option.map₂ (fun a b => a - b) (calculateEMI tl br t)
          (calculateEMI (tl - pa) (br + pr) t) ∧
    Option.map₂ (fun a b => a + b) (calculateSubLoanSplit tl pa br pr t).partnerAEMI
        (calculateSubLoanSplit tl pa br pr t).partnerBCDEMI
      = (calculateSubLoanSplit tl pa br pr t).totalEMI := by
  refine ⟨rfl, rfl, rfl, ?_⟩
  rw [split_partnerAEMI, split_partnerBCDEMI, split_totalEMI]
  rcases hte : calculateEMI tl br t with _ | a
  · simp [Option.map₂]
  · rcases hbe : calculateEMI (tl - pa) (br + pr) t with _ | b
    · exfalso
      have hsum : br + pr = 0 :=
        (calculateEMI_none_iff (tl - pa) (br + pr) t (by linarith) ht).mp hbe
      have hbr0 : br = 0 := by linarith
      rw [hbr0, calculateEMI_zero_rate] at hte
      exact Option.noConfusion hte
    · simp only [Option.map₂, Option.bind_some, Option.map_some', Option.some_bind]
      congr 1
      ring

/-- C4 witness: the structural identities evaluated at totalLoan 4095,
partnerAPrincipal 0, bankRate 1200, premiumRate 0, tenure 1. -/
theorem c4_witness :
    (calculateSubLoanSplit 4095 0 1200 0 1).partnerBCDEMI = calculateEMI (4095 - 0) (1200 + 0) 1 ∧
    (calculateSubLoanSplit 4095 0 1200 0 1).totalEMI = calculateEMI 4095 1200 1 ∧
    (calculateSubLoanSplit 4095 0 1200 0 1).partnerAEMI
      = Option.map₂ (fun a b => a - b) (calculateEMI 4095 1200 1)
          (calculateEMI (4095 - 0) (1200 + 0) 1) ∧
    Option.map₂ (fun a b => a + b) (calculateSubLoanSplit 4095 0 1200 0 1).partnerAEMI
        (calculateSubLoanSplit 4095 0 1200 0 1).partnerBCDEMI
      = (calculateSubLoanSplit 4095 0 1200 0 1).totalEMI :=
  c4_split_structure 4095 0 1200 0 1 (le_refl 0) (by norm_num) (by norm_num) (le_refl 0)
    (by norm_num)

/-! ### Claim C5 -/

/-- C5 counterexample: the sum-to-100 law fails as stated.  The claimed
preconditions of a valid split (0 ≤ partnerAPrincipal ≤ totalLoan,
totalLoan > 0, bankRate ≥ 0, premiumRate ≥ 0, tenure > 0) admit
bankRate = 0, where totalEMI is the non-finite 0 / 0 and both shares are
non-finite, so no two numbers summing to 100 are returned. -/
theorem c5_counterexample :
    (0 : ℚ) ≤ 0 ∧ (0 : ℚ) ≤ 4095 ∧ (0 : ℚ) < 4095 ∧ (0 : ℚ) ≤ 0 ∧ 0 < 1 ∧
    (calculateSubLoanSplit 4095 0 0 0 1).partnerAShare = none ∧
    (calculateSubLoanSplit 4095 0 0 0 1).partnerBCDShare = none := by
  refine ⟨le_refl 0, by norm_num, by norm_num, le_refl 0, by norm_num, ?_, ?_⟩ <;>
    norm_num [calculateSubLoanSplit, calculateEMI, jsDiv, jsRound2, Option.map₂]

/-- C5 amended: whenever the split returns finite shares under the
documented preconditions of a valid split (which excludes bankRate = 0 and
loans whose total EMI rounds to 0, where the shares are non-finite), the
two shares sum to exactly 100, because partnerBCDShare is computed as the
complement 100 - partnerAShare. -/
theorem c5_shares_sum (tl pa br pr : ℚ) (t : ℕ)
    (h0 : 0 ≤ pa) (h1 : pa ≤ tl) (htl : 0 < tl) (hbr : 0 ≤ br) (hpr : 0 ≤ pr) (ht : 0 < t) :
    ∀ a b, (calculateSubLoanSplit tl pa br pr t).partnerAShare = some a →
      (calculateSubLoanSplit tl pa br pr t).partnerBCDShare = some b → a + b = 100 := by
  intro a b ha hb
  rw [split_partnerBCDShare, ha, Option.map_some'] at hb
  have hb2 : 100 - a = b := Option.some.inj hb
  linarith

/-- C5 witness: at totalLoan 4095, partnerAPrincipal 0, bankRate 1200,
premiumRate 0, tenure 1 the shares are 0 and 100 and sum to 100. -/
theorem c5_witness :
    (calculateSubLoanSplit 4095 0 1200 0 1).partnerAShare = some 0 ∧
    (calculateSubLoanSplit 4095 0 1200 0 1).partnerBCDShare = some 100 ∧
    (0 : ℚ) + 100 = 100 := by
  have ha : (calculateSubLoanSplit 4095 0 1200 0 1).partnerAShare = some 0 := by
    norm_num [calculateSubLoanSplit, calculateEMI, jsDiv, jsRound2, Option.map₂]
  have hb : (calculateSubLoanSplit 4095 0 1200 0 1).partnerBCDShare = some 100 := by
    norm_num [calculateSubLoanSplit, calculateEMI, jsDiv, jsRound2, Option.map₂]
  exact ⟨ha, hb,
    c5_shares_sum 4095 0 1200 0 1 (le_refl 0) (by norm_num) (by norm_num) (by norm_num)
      (le_refl 0) (by norm_num) 0 100 ha hb⟩

/-! ### Claim C8 -/

/-- C8: once the insufficiency guard has passed, i.e. the capex-proportional
equity amount projectCapex * equityShare / 100 does not exceed the bank loan,
the derived partnerAPrincipal is exactly that amount: the clamp between the
floor (the amount itself) and the bank loan collapses to the amount. -/
theorem c8_partnerAPrincipal_exact (projectCapex equityShare bankLoan : ℚ)
    (h : projectCapex * equityShare / 100 ≤ bankLoan) :
    partnerAPrincipalOf projectCapex equityShare bankLoan = projectCapex * equityShare / 100 := by
  unfold partnerAPrincipalOf minRequiredFundingA
  simp only
  by_cases hb : bankLoan ≤ projectCapex * equityShare / 100
  · rw [if_pos hb]
    exact le_antisymm hb h
  · rw [if_neg hb]
    push_neg at hb
    rw [min_eq_right (le_of_lt hb), max_self]

/-- C8 witness: with projectCapex 100, equityShare 50 and bankLoan 80 the
guard holds and partnerAPrincipal is exactly 50. -/
theorem c8_witness :
    (100 : ℚ) * 50 / 100 ≤ 80 ∧ partnerAPrincipalOf 100 50 80 = 100 * 50 / 100 :=
  ⟨by norm_num, c8_partnerAPrincipal_exact 100 50 80 (by norm_num)⟩

/-! ### Claim C6 -/

/-- C6 counterexample: the round-trip law fails as stated.  With
currentEMI 40, currentShare 1, targetShare 0, partnerLoanRate 120000 and
tenure 1 the monthly payment is 0.4, but the principal rounds to 0 (the
per-unit installment factor is about 100, so the two-decimal rounding of
the principal loses about 0.4 of monthly payment), and re-running the EMI
formula on the principal yields 0, off by 0.4 — far beyond any two-decimal
tolerance. -/
theorem c6_counterexample :
    (0 : ℚ) < 120000 ∧ 0 < 1 ∧
    (calculatePartnerLoan 40 1 0 120000 1).partnerLoanPrincipal = some 0 ∧
    (calculatePartnerLoan 40 1 0 120000 1).monthlyPayment = 2 / 5 ∧
    calculateEMI 0 120000 1 = some 0 ∧
    ¬ (|(0 : ℚ) - 2 / 5| ≤ 1 / 100) := by
  refine ⟨by norm_num, by norm_num, ?_, by norm_num [calculatePartnerLoan], ?_, ?_⟩
  · norm_num [calculatePartnerLoan, jsDiv, jsRound2]
  · norm_num [calculateEMI, jsDiv, jsRound2]
  · rw [abs_of_nonpos (by norm_num)]
    norm_num

/-- C6 amended: the round-trip law holds with the tolerance scaled by the
per-unit installment factor; in particular, whenever the factor is at most 1
(the case for every realistic rate and tenure) the recomputed EMI agrees
with the monthly payment to within 0.01.  The rate must be strictly
positive, otherwise the solver returns no finite principal. -/
theorem c6_roundtrip (cE cS tS rate : ℚ) (t : ℕ) (hr : 0 < rate) (ht : 0 < t)
    (hf : installmentFactor rate t ≤ 1) :
    ∃ p e, (calculatePartnerLoan cE cS tS rate t).partnerLoanPrincipal = some p ∧
      calculateEMI p rate t = some e ∧
      |e - (calculatePartnerLoan cE cS tS rate t).monthlyPayment| ≤ 1 / 100 := by
  have hfpos := installmentFactor_pos rate t hr ht
  set f := installmentFactor rate t with hfdef
  set m := cE * (cS - tS) / 100 with hmdef
  set p := jsRound2 (m / f) with hpdef
  refine ⟨p, jsRound2 (p * f), ?_, ?_, ?_⟩
  · rw [partnerLoan_principal cE cS tS rate t hr ht]
  · rw [calculateEMI_pos_rate p rate t hr ht]
  · rw [partnerLoan_monthlyPayment]
    have h1 : |p - m / f| ≤ 1 / 200 := jsRound2_err _
    have h2 : |jsRound2 (p * f) - p * f| ≤ 1 / 200 := jsRound2_err _
    have h3 : |p * f - m| ≤ f / 200 := by
      have heq : p * f - m = (p - m / f) * f := by
        rw [sub_mul, div_mul_cancel₀ _ (ne_of_gt hfpos)]
      rw [heq, abs_mul, abs_of_pos hfpos]
      calc |p - m / f| * f ≤ 1 / 200 * f := by
            exact mul_le_mul_of_nonneg_right h1 (le_of_lt hfpos)
        _ = f / 200 := by ring
    calc |jsRound2 (p * f) - m|
        ≤ |jsRound2 (p * f) - p * f| + |p * f - m| := abs_sub_le _ _ _
      _ ≤ 1 / 200 + f / 200 := add_le_add h2 h3
      _ ≤ 1 / 200 + 1 / 200 := by linarith
      _ = 1 / 100 := by norm_num

/-- C6 witness: the amended round-trip law at currentEMI 1000, currentShare
50, targetShare 40, rate 12 percent, tenure 1: the installment factor is
about 0.0888 and the recomputed EMI is exactly the monthly payment 100. -/
theorem c6_witness :
    (0 : ℚ) < 12 ∧ installmentFactor 12 1 ≤ 1 ∧
    ∃ p e, (calculatePartnerLoan 1000 50 40 12 1).partnerLoanPrincipal = some p ∧
      calculateEMI p 12 1 = some e ∧
      |e - (calculatePartnerLoan 1000 50 40 12 1).monthlyPayment| ≤ 1 / 100 :=
  ⟨by norm_num, by norm_num [installmentFactor],
    c6_roundtrip 1000 50 40 12 1 (by norm_num) (by norm_num)
      (by norm_num [installmentFactor])⟩

/-! ### Claim C9 -/

/-- C9: inputs satisfying the documented precondition 0 ≤ partnerAPrincipal
≤ totalLoan exist for which the split returns a negative partnerAEMI and a
negative partnerAShare: with partnerAPrincipal = 0, totalLoan = 4095,
bankRate = 1200, premiumRate = 1200 and tenure 1 the premium-loaded
remainder EMI (8190.02) exceeds the total EMI (4096). -/
theorem c9_negative_residual :
    (0 : ℚ) ≤ 0 ∧ (0 : ℚ) ≤ 4095 ∧ (0 : ℚ) < 4095 ∧ (0 : ℚ) < 1200 ∧
      (calculateSubLoanSplit 4095 0 1200 1200 1).partnerAEMI = some (-204701 / 50) ∧
      (-204701 / 50 : ℚ) < 0 ∧
      (calculateSubLoanSplit 4095 0 1200 1200 1).partnerAShare = some (-204701 / 2048) ∧
      (-204701 / 2048 : ℚ) < 0 := by
  refine ⟨le_refl 0, by norm_num, by norm_num, by norm_num, ?_, by norm_num, ?_, by norm_num⟩ <;>
    norm_num [calculateSubLoanSplit, calculateEMI, jsDiv, jsRound2, Option.map₂]

/-! ### Coordinator lemmas -/

lemma published_eq (i : LoanInputs) (r : CalcResult)
    (h : calculateResults i = CoordOutcome.published r) : r = buildResult i := by
  unfold calculateResults at h
  split_ifs at h
  exact ((CoordOutcome.published.injEq _ _).mp h).symm

lemma split_partnerAEMI_some (tl pa br pr : ℚ) (t : ℕ) (a : ℚ)
    (h : (calculateSubLoanSplit tl pa br pr t).partnerAEMI = some a) :
    ∃ ttl b, (calculateSubLoanSplit tl pa br pr t).totalEMI = some ttl ∧
      (calculateSubLoanSplit tl pa br pr t).partnerBCDEMI = some b ∧ a = ttl - b := by
  rw [split_partnerAEMI] at h
  rcases hte : calculateEMI tl br t with _ | ttl
  · rw [hte] at h
    simp [Option.map₂] at h
  · rw [hte] at h
    rcases hbe : calculateEMI (tl - pa) (br + pr) t with _ | b
    · rw [hbe] at h
      simp [Option.map₂] at h
    · rw [hbe] at h
      simp only [Option.map₂, Option.some_bind, Option.map_some'] at h
      exact ⟨ttl, b, by rw [split_totalEMI, hte], by rw [split_partnerBCDEMI, hbe],
        (Option.some.inj h).symm⟩

lemma split_share_inversion (tl pa br pr : ℚ) (t : ℕ) (x : ℚ)
    (h : (calculateSubLoanSplit tl pa br pr t).partnerAShare = some x) :
    ∃ a ttl, (calculateSubLoanSplit tl pa br pr t).partnerAEMI = some a ∧
      (calculateSubLoanSplit tl pa br pr t).totalEMI = some ttl ∧
      ttl ≠ 0 ∧ x = a / ttl * 100 := by
  rw [split_partnerAShare] at h
  rcases hae : (calculateSubLoanSplit tl pa br pr t).partnerAEMI with _ | a
  · rw [hae] at h
    simp [Option.map₂] at h
  · rw [hae] at h
    rcases hte : (calculateSubLoanSplit tl pa br pr t).totalEMI with _ | ttl
    · rw [hte] at h
      simp [Option.map₂] at h
    · rw [hte] at h
      simp only [Option.map₂, Option.some_bind, Option.map_some', Option.join] at h
      unfold jsDiv at h
      by_cases h0 : ttl = 0
      · rw [if_pos h0] at h
        simp at h
      · rw [if_neg h0] at h
        have hx : a / ttl * 100 = x := by simpa using h
        exact ⟨a, ttl, rfl, rfl, h0, hx.symm⟩

lemma bankEMIOf_eq_totalEMI (i : LoanInputs) : (splitOf i).totalEMI = bankEMIOf i := rfl

lemma splitOf_share_inversion (i : LoanInputs) (x : ℚ)
    (h : (splitOf i).partnerAShare = some x) :
    ∃ a ttl, (splitOf i).partnerAEMI = some a ∧ (splitOf i).totalEMI = some ttl ∧
      ttl ≠ 0 ∧ x = a / ttl * 100 := by
  unfold splitOf at h ⊢
  exact split_share_inversion _ _ _ _ _ _ h

lemma splitOf_partnerAEMI_some (i : LoanInputs) (a : ℚ)
    (h : (splitOf i).partnerAEMI = some a) :
    ∃ ttl b, (splitOf i).totalEMI = some ttl ∧
      (splitOf i).partnerBCDEMI = some b ∧ a = ttl - b := by
  unfold splitOf at h ⊢
  exact split_partnerAEMI_some _ _ _ _ _ _ h

lemma buildResult_bankEMI (i : LoanInputs) : (buildResult i).bankEMI = bankEMIOf i := rfl

lemma buildResult_partnerAShare (i : LoanInputs) :
    (buildResult i).partnerAShare = (splitOf i).partnerAShare := rfl

lemma buildResult_partnerAEMI (i : LoanInputs) :
    (buildResult i).partnerAEMI = (splitOf i).partnerAEMI := rfl

lemma buildResult_partnerBCDEMI (i : LoanInputs) :
    (buildResult i).partnerBCDEMI = (splitOf i).partnerBCDEMI := rfl

lemma buildResult_none_case (i : LoanInputs) (hs : (splitOf i).partnerAShare = none) :
    (buildResult i).partnerLoan = none ∧
    (buildResult i).finalPartnerAEMI = (splitOf i).partnerAEMI ∧
    (buildResult i).finalPartnerBCDTotalEMI = (splitOf i).partnerBCDEMI := by
  simp only [buildResult, hs]
  exact ⟨by trivial, by trivial, by trivial⟩

lemma buildResult_taken (i : LoanInputs) (paShare bEMI : ℚ)
    (hs : (splitOf i).partnerAShare = some paShare) (hb : bankEMIOf i = some bEMI)
    (hlt : i.targetShare.getD 0 < paShare) :
    (buildResult i).partnerLoan = some (calculatePartnerLoan bEMI paShare
        (i.targetShare.getD 0) (i.partnerLoanRate.getD 0) (i.tenureYears.getD 0)) ∧
    (buildResult i).finalPartnerAEMI = some (i.targetShare.getD 0 / 100 * bEMI) ∧
    (buildResult i).finalPartnerBCDTotalEMI = (splitOf i).partnerBCDEMI.map
        (fun x => x + (calculatePartnerLoan bEMI paShare (i.targetShare.getD 0)
          (i.partnerLoanRate.getD 0) (i.tenureYears.getD 0)).monthlyPayment) := by
  simp only [buildResult, hs, hb, if_pos hlt]
  exact ⟨by trivial, by trivial, by trivial⟩

lemma buildResult_skipped_some (i : LoanInputs) (paShare bEMI : ℚ)
    (hs : (splitOf i).partnerAShare = some paShare) (hb : bankEMIOf i = some bEMI)
    (hlt : ¬ i.targetShare.getD 0 < paShare) :
    (buildResult i).partnerLoan = none ∧
    (buildResult i).finalPartnerAEMI = (splitOf i).partnerAEMI ∧
    (buildResult i).finalPartnerBCDTotalEMI = (splitOf i).partnerBCDEMI := by
  simp only [buildResult, hs, hb, if_neg hlt]
  exact ⟨by trivial, by trivial, by trivial⟩

/-! ### Claim C2 -/

/-- C2 counterexample: an input vector in which all eight fields are
present, numeric and non-negative is nevertheless rejected, because the
coordinator has a second guard (bank loan below the capex-proportional
minimum funding of Partner A) beyond the claimed single InvalidInput kind. -/
theorem c2_counterexample :
    hasInvalidField demoRejectedInputs = false ∧
    calculateResults demoRejectedInputs = CoordOutcome.rejected insufficientLoanMessage := by
  have h : hasInvalidField demoRejectedInputs = false := by
    norm_num [hasInvalidField, fieldInvalid, demoRejectedInputs]
  refine ⟨h, ?_⟩
  unfold calculateResults
  rw [h]
  simp only [Bool.false_eq_true, if_false]
  rw [if_pos (by norm_num [minRequiredFundingA, demoRejectedInputs])]

/-- C2 amended: the coordinator rejects with the InvalidInput message
exactly when some field is missing, non-numeric or negative; with all
fields valid it additionally rejects with the insufficiency message when
the bank loan is below the capex-proportional minimum funding, and
otherwise publishes a fresh result record. -/
theorem c2_two_rejection_paths (i : LoanInputs) :
    (hasInvalidField i = true → calculateResults i = CoordOutcome.rejected invalidInputMessage) ∧
    (hasInvalidField i = false →
      i.bankLoan.getD 0 < minRequiredFundingA (i.projectCapex.getD 0) (i.equityShare.getD 0) →
      calculateResults i = CoordOutcome.rejected insufficientLoanMessage) ∧
    (hasInvalidField i = false →
      minRequiredFundingA (i.projectCapex.getD 0) (i.equityShare.getD 0) ≤ i.bankLoan.getD 0 →
      calculateResults i = CoordOutcome.published (buildResult i)) := by
  refine ⟨fun h => ?_, fun h h2 => ?_, fun h h2 => ?_⟩
  · simp [calculateResults, h]
  · unfold calculateResults
    rw [h]
    simp only [Bool.false_eq_true, if_false]
    rw [if_pos h2]
  · unfold calculateResults
    rw [h]
    simp only [Bool.false_eq_true, if_false]
    rw [if_neg (not_lt.mpr h2)]

/-- C2 witness: a fully valid input vector passing both guards is
published. -/
theorem c2_witness :
    ∃ r, calculateResults demoLoanBranchInputs = CoordOutcome.published r :=
  ⟨buildResult demoLoanBranchInputs,
    (c2_two_rejection_paths demoLoanBranchInputs).2.2
      (by norm_num [hasInvalidField, fieldInvalid, demoLoanBranchInputs])
      (by norm_num [minRequiredFundingA, demoLoanBranchInputs])⟩

/-! ### Claim C7 -/

/-- C7: on every published calculation the partner-loan record is present
exactly when targetShare < partnerAShare under the JavaScript comparison
(false on a non-finite share), and when the branch is skipped no
partner-loan fields are set and finalPartnerAEMI is the partnerAEMI of the
split, unchanged. -/
theorem c7_partner_loan_guard (i : LoanInputs) (r : CalcResult)
    (h : calculateResults i = CoordOutcome.published r) :
    r.partnerLoan.isSome = jsLt (i.targetShare.getD 0) r.partnerAShare ∧
    (jsLt (i.targetShare.getD 0) r.partnerAShare = false →
      r.partnerLoan = none ∧ r.finalPartnerAEMI = r.partnerAEMI) := by
  have hr := published_eq i r h
  subst hr
  rcases hs : (splitOf i).partnerAShare with _ | paShare
  · obtain ⟨h1, h2, _⟩ := buildResult_none_case i hs
    constructor
    · rw [h1, buildResult_partnerAShare, hs]
      simp [jsLt]
    · intro _
      refine ⟨h1, ?_⟩
      rw [h2, buildResult_partnerAEMI]
  · obtain ⟨a0, ttl, hae, hte, hne0, hxeq⟩ := splitOf_share_inversion i paShare hs
    have hbank : bankEMIOf i = some ttl := by
      rw [← bankEMIOf_eq_totalEMI]
      exact hte
    by_cases hlt : i.targetShare.getD 0 < paShare
    · obtain ⟨h1, h2, _⟩ := buildResult_taken i paShare ttl hs hbank hlt
      constructor
      · rw [h1, buildResult_partnerAShare, hs]
        simp [jsLt, hlt]
      · intro hf
        exfalso
        rw [buildResult_partnerAShare, hs] at hf
        simp [jsLt, hlt] at hf
    · obtain ⟨h1, h2, _⟩ := buildResult_skipped_some i paShare ttl hs hbank hlt
      constructor
      · rw [h1, buildResult_partnerAShare, hs]
        simp [jsLt, hlt]
      · intro _
        refine ⟨h1, ?_⟩
        rw [h2, buildResult_partnerAEMI]

/-- C7 witness: with the target share exactly equal to the current share of
100 the branch is skipped, no partner loan is recorded and finalPartnerAEMI
equals the split partnerAEMI. -/
theorem c7_witness :
    ∃ r, calculateResults demoNoLoanInputs = CoordOutcome.published r ∧
      r.partnerLoan = none ∧ r.finalPartnerAEMI = r.partnerAEMI := by
  have hpub : calculateResults demoNoLoanInputs
      = CoordOutcome.published (buildResult demoNoLoanInputs) := by
    norm_num [calculateResults, hasInvalidField, fieldInvalid, minRequiredFundingA,
      demoNoLoanInputs]
  have hsh : (buildResult demoNoLoanInputs).partnerAShare = some 100 := by
    rw [buildResult_partnerAShare]
    norm_num [splitOf, partnerAPrincipalOf, minRequiredFundingA, demoNoLoanInputs,
      calculateSubLoanSplit, calculateEMI, jsDiv, jsRound2, Option.map₂]
  have hj : jsLt (demoNoLoanInputs.targetShare.getD 0)
      (buildResult demoNoLoanInputs).partnerAShare = false := by
    rw [hsh]
    norm_num [jsLt, demoNoLoanInputs]
  exact ⟨_, hpub, (c7_partner_loan_guard demoNoLoanInputs _ hpub).2 hj⟩

/-! ### Claim C10 -/

/-- C10: conservation in exact arithmetic.  On every published calculation
with positive bank loan and positive bank rate, whenever finalPartnerAEMI,
finalPartnerBCDTotalEMI and bankEMI are all finite they satisfy
finalPartnerAEMI + finalPartnerBCDTotalEMI = bankEMI, both on the
partner-loan branch and on the unchanged branch. -/
theorem c10_conservation (i : LoanInputs) (r : CalcResult)
    (h : calculateResults i = CoordOutcome.published r)
    (htl : 0 < i.bankLoan.getD 0) (hbr : 0 < i.bankRate.getD 0) :
    ∀ a b c, r.finalPartnerAEMI = some a → r.finalPartnerBCDTotalEMI = some b →
      r.bankEMI = some c → a + b = c := by
  have hr := published_eq i r h
  subst hr
  intro a b c ha hb hc
  rw [buildResult_bankEMI] at hc
  rcases hs : (splitOf i).partnerAShare with _ | paShare
  · obtain ⟨_, h2, h3⟩ := buildResult_none_case i hs
    rw [h2] at ha
    rw [h3] at hb
    obtain ⟨ttl, b0, hte, hbcd, haeq⟩ := splitOf_partnerAEMI_some i a ha
    rw [hbcd] at hb
    have hb0 : b0 = b := Option.some.inj hb
    rw [bankEMIOf_eq_totalEMI] at hte
    have hc0 : ttl = c := Option.some.inj (hte.symm.trans hc)
    rw [haeq, hb0, hc0]
    ring
  · obtain ⟨a0, ttl, hae, hte, hne0, hxeq⟩ := splitOf_share_inversion i paShare hs
    have hbank : bankEMIOf i = some ttl := by
      rw [← bankEMIOf_eq_totalEMI]
      exact hte
    have hc0 : ttl = c := Option.some.inj (hbank.symm.trans hc)
    obtain ⟨ttl2, b0, hte2, hbcd, haeq⟩ := splitOf_partnerAEMI_some i a0 hae
    have httl : ttl2 = ttl := Option.some.inj (hte2.symm.trans hte)
    by_cases hlt : i.targetShare.getD 0 < paShare
    · obtain ⟨_, h2, h3⟩ := buildResult_taken i paShare ttl hs hbank hlt
      rw [h2] at ha
      have ha0 : i.targetShare.getD 0 / 100 * ttl = a := Option.some.inj ha
      rw [h3, hbcd] at hb
      simp only [Option.map_some'] at hb
      rw [partnerLoan_monthlyPayment] at hb
      have hb0 : b0 + ttl * (paShare - i.targetShare.getD 0) / 100 = b := Option.some.inj hb
      rw [← ha0, ← hb0, ← hc0, hxeq, haeq, httl]
      field_simp
      ring
    · obtain ⟨_, h2, h3⟩ := buildResult_skipped_some i paShare ttl hs hbank hlt
      rw [h2] at ha
      have ha0 : a0 = a := Option.some.inj (hae.symm.trans ha)
      rw [h3, hbcd] at hb
      have hb0 : b0 = b := Option.some.inj hb
      rw [← ha0, ← hb0, ← hc0, haeq, httl]
      ring

/-- C10 witness: on the partner-loan branch with bank loan 4095, bank rate
1200 percent and target share 50, the published numbers are 2048 + 2048 =
4096. -/
theorem c10_witness :
    (buildResult demoLoanBranchInputs).finalPartnerAEMI = some 2048 ∧
    (buildResult demoLoanBranchInputs).finalPartnerBCDTotalEMI = some 2048 ∧
    (buildResult demoLoanBranchInputs).bankEMI = some 4096 ∧
    (2048 : ℚ) + 2048 = 4096 := by
  have hpub : calculateResults demoLoanBranchInputs
      = CoordOutcome.published (buildResult demoLoanBranchInputs) := by
    norm_num [calculateResults, hasInvalidField, fieldInvalid, minRequiredFundingA,
      demoLoanBranchInputs]
  have hs : (splitOf demoLoanBranchInputs).partnerAShare = some 100 := by
    norm_num [splitOf, partnerAPrincipalOf, minRequiredFundingA, demoLoanBranchInputs,
      calculateSubLoanSplit, calculateEMI, jsDiv, jsRound2, Option.map₂]
  have hbank : bankEMIOf demoLoanBranchInputs = some 4096 := by
    norm_num [bankEMIOf, calculateEMI, jsDiv, jsRound2, demoLoanBranchInputs]
  have hlt : demoLoanBranchInputs.targetShare.getD 0 < 100 := by
    norm_num [demoLoanBranchInputs]
  obtain ⟨h1, h2, h3⟩ := buildResult_taken demoLoanBranchInputs 100 4096 hs hbank hlt
  have hbcd : (splitOf demoLoanBranchInputs).partnerBCDEMI = some 0 := by
    norm_num [splitOf, partnerAPrincipalOf, minRequiredFundingA, demoLoanBranchInputs,
      calculateSubLoanSplit, calculateEMI, jsDiv, jsRound2, Option.map₂]
  have ha : (buildResult demoLoanBranchInputs).finalPartnerAEMI = some 2048 := by
    rw [h2]
    norm_num [demoLoanBranchInputs]
  have hb : (buildResult demoLoanBranchInputs).finalPartnerBCDTotalEMI = some 2048 := by
    rw [h3, hbcd]
    simp only [Option.map_some']
    rw [partnerLoan_monthlyPayment]
    norm_num [demoLoanBranchInputs]
  have hcc : (buildResult demoLoanBranchInputs).bankEMI = some 4096 := by
    rw [buildResult_bankEMI]
    exact hbank
  exact ⟨ha, hb, hcc,
    c10_conservation demoLoanBranchInputs _ hpub
      (by norm_num [demoLoanBranchInputs]) (by norm_num [demoLoanBranchInputs])
      2048 2048 4096 ha hb hcc⟩

end LoanCalc
